import Mathlib

/-
Shallow embedding of the chess-puzzle upload scripts of this repository
(src/upload_puzzles.py, src/upload_puzzle.py, src/.github/scripts/upload_puzzles.py,
src/.github/scripts/upload_daily_puzzle.py).

Python strings are modelled as Lean Strings; where the source computes on the
characters of a string (suffix tests, lowercasing, regex filtering, splitting),
the computation is expressed on `String.data`, i.e. on lists of characters.
Firestore values are modelled by the inductive `FireVal`; the external
python-chess library (board state, move legality, SAN rendering) is modelled as
an abstract capability record `ChessOps`, as the repository treats it as an
external collaborator.  Exceptions and stdout of the Python code are made
explicit in return values.
-/

/-- A Firestore-storable value: a scalar string, or an array of values.
Used to state flatness (no array nested directly inside an array). -/
inductive FireVal where
  | str : String → FireVal
  | arr : List FireVal → FireVal

/-- True when the value is not an array. -/
def FireVal.isNotArr : FireVal → Bool
  | .arr _ => false
  | _ => true

/-- A value is a flat array when it is an array none of whose elements is
itself an array (the shape Firestore accepts for array fields). -/
def FireVal.isFlatArray : FireVal → Bool
  | .arr xs => xs.all FireVal.isNotArr
  | _ => false

/-- The capabilities the scripts consume from the external python-chess
library: parsing a UCI move string (`chess.Move.from_uci`, whose exception is
modelled as `none`), legality of a move in a position, SAN rendering of a legal
move, and pushing a move onto a position.  `σ` is the board-state type and `μ`
the move type. -/
structure ChessOps (σ μ : Type) where
  fromUci : String → Option μ
  isLegal : σ → μ → Bool
  san : σ → μ → String
  push : σ → μ → σ

namespace GH

/- Embedding of src/.github/scripts/upload_puzzles.py. -/

/-- The length gate inside `process_puzzle`:
`if len(solution_san) > 6: raise ValueError("Puzzle too long, skipping.")`,
otherwise the puzzle (with its SAN solution) is returned.  The raised
exception is modelled as `Except.error`. -/
def process_puzzle_check (solution_san : List String) : Except String (List String) :=
  if solution_san.length > 6 then Except.error "Puzzle too long, skipping."
  else Except.ok solution_san

/-- Whether a string's final character is the given character, as Python's
`s.endswith(c)` for a one-character suffix `c`. -/
def strEndsWithChar (s : String) (c : Char) : Bool :=
  s.data.getLast? == some c

/-- The description branch of `generate_title_and_description`:
`san_solution[-1]` raises `IndexError` on an empty list (modelled as `none`);
otherwise the description depends on whether the last SAN move ends in `#`,
using floor division `len(san_solution)//2` for the move count. -/
def generate_description (san_solution : List String) : Option String :=
  match san_solution.getLast? with
  | none => none
  | some lastMove =>
    if strEndsWithChar lastMove '#' then
      some ("Find the forced mate in " ++ toString (san_solution.length / 2) ++ " moves.")
    else
      some "Find the best move to gain a decisive advantage."

/-- The solutions field written by `upload_puzzle`:
`{"solutions": [puzzle["san_solution"]]}` — the SAN list wrapped in a
one-element outer list. -/
def upload_solutions_field (san_solution : List String) : FireVal :=
  .arr [.arr (san_solution.map .str)]

/-- The UCI-to-SAN conversion loop inside `process_puzzle`:
`move = board.parse_uci(uci); solution_san.append(board.san(move));
board.push(move)`.  `board.parse_uci` raises on a move that does not parse or
is not legal in the current position, and `process_puzzle` has no handler, so
the exception (modelled as `Except.error`) propagates and the whole puzzle is
skipped — the SAN moves accumulated so far are discarded, never returned. -/
def process_puzzle_convert {σ μ : Type} (ops : ChessOps σ μ) :
    σ → List String → Except String (List String)
  | _, [] => Except.ok []
  | b, u :: us =>
    match ops.fromUci u with
    | none => Except.error ("invalid uci: " ++ u)
    | some mv =>
      if ops.isLegal b mv then
        match process_puzzle_convert ops (ops.push b mv) us with
        | Except.ok rest => Except.ok (ops.san b mv :: rest)
        | Except.error e => Except.error e
      else Except.error ("illegal uci: " ++ u)

end GH

namespace UploadPuzzles

/- Embedding of src/upload_puzzles.py. -/

/-- The fixed GRANDMASTERS list of the source (16 names). -/
def GRANDMASTERS : List String := [
  "Magnus Carlsen", "Garry Kasparov", "Bobby Fischer", "Anatoly Karpov",
  "Mikhail Tal", "Jose Raul Capablanca", "Paul Morphy", "Emanuel Lasker",
  "Viswanathan Anand", "Hikaru Nakamura", "Fabiano Caruana", "Wesley So",
  "Ding Liren", "Ian Nepomniachtchi", "Alireza Firouzja", "Levon Aronian"]

/-- `generate_puzzle_title`: the persisted rotation cursor is `some i` when the
metadata document holds `last_index = i` and `none` when the document or the
field is missing (Python then uses the default -1).  Returns the picked title
together with the `last_index` value persisted back
(`new_index = (last_index + 1) % len(GRANDMASTERS)`; Python's `%` on a positive
modulus agrees with `Int.emod`). -/
def generate_puzzle_title (cursor : Option Int) : String × Int :=
  let last_index : Int := cursor.getD (-1)
  let new_index : Int := (last_index + 1) % (GRANDMASTERS.length : Int)
  (GRANDMASTERS.getD new_index.toNat "", new_index)

/-- The filter in `main` that accepts a fetched puzzle:
`if len(solution_uci) <= 6`. -/
def main_length_filter (solution_uci : List String) : Bool :=
  solution_uci.length ≤ 6

/-- The solutions field written by `main`: `{"solutions": [san_moves], ...}` —
the SAN list wrapped in a one-element outer list. -/
def solution_doc_solutions (san_moves : List String) : FireVal :=
  .arr [.arr (san_moves.map .str)]

variable {σ μ : Type}

/-- `uci_to_san_list`: walks the UCI strings in order; a move that fails to
parse (`chess.Move.from_uci` raising) or that is not legal in the current
position breaks out of the loop.  The first component is the returned SAN
list; the second component makes the `print` emitted at the break explicit. -/
def uci_to_san_list (ops : ChessOps σ μ) : σ → List String → List String × List String
  | _, [] => ([], [])
  | b, u :: us =>
    match ops.fromUci u with
    | none => ([], ["Error processing UCI move " ++ u])
    | some mv =>
      if ops.isLegal b mv then
        let r := uci_to_san_list ops (ops.push b mv) us
        (ops.san b mv :: r.1, r.2)
      else
        ([], ["Skipping illegal move: " ++ u])

/-- Helper: the UCI strings all parse and each is legal in the position
reached by pushing its predecessors. -/
def legalRun (ops : ChessOps σ μ) : σ → List String → Bool
  | _, [] => true
  | b, u :: us =>
    match ops.fromUci u with
    | none => false
    | some mv => ops.isLegal b mv && legalRun ops (ops.push b mv) us

/-- Helper: the position after pushing every parseable move of the list in
order. -/
def runBoard (ops : ChessOps σ μ) : σ → List String → σ
  | b, [] => b
  | b, u :: us =>
    match ops.fromUci u with
    | none => b
    | some mv => runBoard ops (ops.push b mv) us

/-- Helper: the SAN rendering of each parseable move of the list, each against
the position reached by its predecessors. -/
def sanRun (ops : ChessOps σ μ) : σ → List String → List String
  | _, [] => []
  | b, u :: us =>
    match ops.fromUci u with
    | none => []
    | some mv => ops.san b mv :: sanRun ops (ops.push b mv) us

/-- A toy instance of the python-chess capabilities, used to exercise the
converter on concrete inputs: the position is the number of moves already
played, every string parses as itself, at most two moves are legal, and SAN
rendering returns the move string. -/
def toyOps : ChessOps Nat String where
  fromUci := fun u => some u
  isLegal := fun b _ => b < 2
  san := fun _ u => u
  push := fun b _ => b + 1

end UploadPuzzles

namespace UploadPuzzle

/- Embedding of src/upload_puzzle.py. -/

/-- `puzzle_exists`: an empty/falsy `source_id` short-circuits to `False`;
otherwise the Firestore query (modelled as a function returning the matching
documents or raising, i.e. `Except.error`) is consulted, any exception is
caught and `False` is returned. -/
def puzzle_exists (query : String → Except String (List String)) (source_id : String) : Bool :=
  if source_id.isEmpty then false
  else
    match query source_id with
    | Except.ok docs => docs.length > 0
    | Except.error _ => false

/-- The duplicate-check step of `main`: the upload is attempted unless the
document carries a truthy `sourceId` for which `puzzle_exists` returns
`True`. -/
def main_upload_decision (query : String → Except String (List String)) (source_id : String) : Bool :=
  if ¬ source_id.isEmpty && puzzle_exists query source_id then false else true

end UploadPuzzle

namespace DailyPuzzle

/- Embedding of src/.github/scripts/upload_daily_puzzle.py. -/

/-- One FEN rank expanded to the per-square list: a digit contributes that many
empty strings (`[''] * int(ch)`), any other character contributes itself. -/
def fen_row_to_list (row : List Char) : List String :=
  row.foldl
    (fun acc ch =>
      acc ++ (if ch.isDigit then List.replicate (ch.toNat - 48) "" else [ch.toString]))
    []

/-- The board written by the script: the piece-placement field of the FEN is
split on `/` and each rank becomes its own list — a list of lists. -/
def fen_to_board (fen_field : String) : FireVal :=
  .arr ((fen_field.data.splitOn '/').map (fun row => .arr ((fen_row_to_list row).map .str)))

end DailyPuzzle

namespace UploadPuzzles

/- Further embeddings from src/upload_puzzles.py. -/

/-- `sanitize_title_for_doc_id`: lowercases the title, turns spaces into
dashes, strips every character outside `[a-z0-9-]` (the `re.sub`), and appends
`-` followed by the current epoch seconds (`int(time.time())`, passed here as
the explicit `now` argument).  The Python string is modelled as its character
list. -/
def sanitize_title_for_doc_id (title : List Char) (now : Nat) : List Char :=
  let sanitized := (title.map Char.toLower).map (fun c => if c = ' ' then '-' else c)
  let sanitized := sanitized.filter (fun c => c.isLower || c.isDigit || c == '-')
  sanitized ++ ('-' :: (Nat.repr now).data)

/-- One Python `str.replace` with a single-character pattern, on the character
list: each occurrence of `c` is replaced by `r`. -/
def replaceChar (c : Char) (r : List Char) : List Char → List Char
  | [] => []
  | x :: xs => (if x = c then r else [x]) ++ replaceChar c r xs

/-- A chain of `str.replace` calls applied left to right. -/
def replaceAll (ps : List (Char × List Char)) (s : List Char) : List Char :=
  ps.foldl (fun acc p => replaceChar p.1 p.2 acc) s

/-- The replacements performed by `serialize_board_to_string`: first
`replace('/', '')`, then `replace(str(i), ' ' * i)` for `i` in
`range(8, 0, -1)`. -/
def board_replacements : List (Char × List Char) :=
  [('/', []),
   ('8', List.replicate 8 ' '), ('7', List.replicate 7 ' '),
   ('6', List.replicate 6 ' '), ('5', List.replicate 5 ' '),
   ('4', List.replicate 4 ' '), ('3', List.replicate 3 ' '),
   ('2', List.replicate 2 ' '), ('1', List.replicate 1 ' ')]

/-- `serialize_board_to_string`, applied to the piece-placement field
`board.board_fen()` of the position (as a character list). -/
def serialize_board_to_string (board_fen : List Char) : List Char :=
  replaceAll board_replacements board_fen

/-- The characters a well-formed FEN piece-placement rank may contain: the
twelve piece symbols and the digits 1..8. -/
def validFenChars : List Char :=
  ['p', 'n', 'b', 'r', 'q', 'k', 'P', 'N', 'B', 'R', 'Q', 'K',
   '1', '2', '3', '4', '5', '6', '7', '8']

/-- The number of squares a FEN rank character stands for: a digit counts as
that many empty squares, a piece symbol as one square. -/
def fenCharWeight (c : Char) : Nat :=
  if c.isDigit then c.toNat - 48 else 1

/-- A well-formed FEN rank: only valid rank characters, covering exactly 8
squares. -/
def wfRank (r : List Char) : Bool :=
  (r.all fun c => decide (c ∈ validFenChars)) && (r.map fenCharWeight).sum == 8

/-- The deletion of the three records paired to one stale puzzle id, in the
order the source issues them (puzzles, then solutions, then results).
`del collection id` tells whether the Firestore delete succeeds; `False`
stands for a raised exception.  Returns the deletes that were actually
attempted and whether the sequence completed without raising — there is no
try/except around the individual deletes, so a failure stops the sequence. -/
def delete_paired_records (del : String → String → Bool) (puzzle_id : String) :
    List (String × String) × Bool :=
  if !del "puzzles" puzzle_id then ([("puzzles", puzzle_id)], false)
  else if !del "solutions" puzzle_id then
    ([("puzzles", puzzle_id), ("solutions", puzzle_id)], false)
  else
    (([("puzzles", puzzle_id), ("solutions", puzzle_id), ("results", puzzle_id)]),
      del "results" puzzle_id)

/-- The retention loop of `delete_old_puzzles`: the stale puzzle ids are
processed in order; an exception from any delete propagates (the loop body has
no try/except, and `main` does not guard the call), aborting the rest of the
pass.  Returns the attempted deletes and whether the pass completed. -/
def delete_old_puzzles (del : String → String → Bool) :
    List String → List (String × String) × Bool
  | [] => ([], true)
  | pid :: rest =>
    let r := delete_paired_records del pid
    if r.2 then
      let rr := delete_old_puzzles del rest
      (r.1 ++ rr.1, rr.2)
    else (r.1, false)

end UploadPuzzles

namespace UploadPuzzle

/- Further embeddings from src/upload_puzzle.py. -/

/-- Python's `a or b` on optional strings: `None` and the empty string are
falsy. -/
def pyOrStr (a b : Option String) : Option String :=
  match a with
  | some s => if s.isEmpty then b else some s
  | none => b

/-- The identifier-and-metadata core of the document built by
`build_document_from_lichess`. -/
structure PuzzleDocCore where
  sourceId : Option String
  title : String
  description : String

/-- `build_document_from_lichess` (identifier and metadata fields):
`pid = puzzle.get("id") or puzzle.get("puzzleId") or None`; the title and
description interpolate the current date (`today`, an explicit argument here),
while `sourceId` is exactly `pid`. -/
def build_document_from_lichess (puzzle_id puzzle_puzzleId : Option String)
    (solutions : List String) (today : String) : PuzzleDocCore :=
  let pid := pyOrStr puzzle_id (pyOrStr puzzle_puzzleId none)
  { sourceId := pid
    title :=
      match pid with
      | some i => "Lichess Puzzle " ++ i
      | none => "Lichess Puzzle " ++ today
    description :=
      today ++ " | " ++ toString solutions.length ++ "-move puzzle from Lichess.org" }

/-- A game as parsed by `chess.pgn.read_game`: a starting board and the
mainline move list. -/
structure ParsedGame (σ μ : Type) where
  initBoard : σ
  mainline : List μ

variable {σ μ : Type}

/-- The fallback token scan of `pgn_to_board_mapping_and_fen` when no game
could be parsed: the text is whitespace-split (Python `str.split()`), tokens
ending in `.` are skipped as move numbers, and `board.push_san` is tried on
each remaining token, ignoring those it cannot parse (`pushSan` returns `none`
for the raised exception). -/
def token_scan (pushSan : σ → String → Option σ) (b : σ) (pgn_text : String) : σ :=
  ((pgn_text.split Char.isWhitespace).filter (fun t => !t.isEmpty)).foldl
    (fun s t =>
      if GH.strEndsWithChar t '.' then s else (pushSan s t).getD s) b

/-- The board-replay core of `pgn_to_board_mapping_and_fen`: with a parsed
game, `n = int(initial_ply) if initial_ply is not None else 0` clamped by
`max(0, min(n, len(moves_list)))` moves of the mainline are pushed from the
game's start; with no parsed game, the permissive token scan runs on a fresh
board. -/
def pgn_to_board_position (push : σ → μ → σ) (pushSan : σ → String → Option σ)
    (game : Option (ParsedGame σ μ)) (fresh : σ) (pgn_text : String)
    (initial_ply : Option Int) : σ :=
  match game with
  | none => token_scan pushSan fresh pgn_text
  | some g =>
    let n : Int := initial_ply.getD 0
    let m : Int := max 0 (min n (g.mainline.length : Int))
    (g.mainline.take m.toNat).foldl push g.initBoard

/-- A stored puzzle document as seen by the retention pass of this script:
its id and its `createdAt` value, already reduced to a comparable timestamp
(`none` when the field is missing or unparseable, which the loop skips). -/
structure StoredDoc where
  id : String
  createdAt : Option Int

/-- The retention pass of `delete_old_puzzles` in src/upload_puzzle.py: every
stored document older than the cutoff gets its deletion attempted, each
attempt wrapped in its own try/except, so a failure (`del` returning `False`)
is logged and the loop continues.  Returns each attempted id with its
outcome. -/
def delete_old_puzzles (del : String → Bool) (cutoff : Int) :
    List StoredDoc → List (String × Bool)
  | [] => []
  | d :: rest =>
    match d.createdAt with
    | none => delete_old_puzzles del cutoff rest
    | some t =>
      if t < cutoff then (d.id, del d.id) :: delete_old_puzzles del cutoff rest
      else delete_old_puzzles del cutoff rest

end UploadPuzzle

/-- C2 counterexample: the claim says an empty converted sequence is rejected,
but the length gate accepts the empty list (`0 > 6` is false, so no exception
is raised). -/
theorem c2_empty_accepted_counterexample :
    (GH.process_puzzle_check []).isOk = true := by
  rfl

/-- C2 (amended): the gate accepts a solution iff its number of full moves,
`ceil(len/2)`, is at most 3 (equivalently `len ≤ 6`); exactly 6 half-moves are
accepted and 7 are rejected; the empty sequence passes the gate. -/
theorem process_puzzle_gate_iff :
    (∀ ms : List String,
        (GH.process_puzzle_check ms).isOk = true ↔ (ms.length + 1) / 2 ≤ 3)
    ∧ (GH.process_puzzle_check (List.replicate 6 "Qh5#")).isOk = true
    ∧ (GH.process_puzzle_check (List.replicate 7 "Qh5#")).isOk = false
    ∧ (GH.process_puzzle_check []).isOk = true := by
  refine ⟨fun ms => ?_, by rfl, by rfl, by rfl⟩
  unfold GH.process_puzzle_check
  by_cases h : ms.length > 6
  · simp only [h, if_pos]
    constructor
    · intro hfalse; cases hfalse
    · intro hle; omega
  · simp only [h, if_neg, not_false_eq_true]
    constructor
    · intro _; omega
    · intro _; rfl

/-- C4: the title rotation returns the grandmaster at index
`(last_index + 1) mod 16` and persists that index; a missing cursor behaves as
`last_index = -1`, yielding index 0; at `last_index = 15` with the 16-name list
the rotation wraps to index 0 and persists 0. -/
theorem generate_puzzle_title_rotation :
    (∀ i : Int,
        UploadPuzzles.generate_puzzle_title (some i) =
          (UploadPuzzles.GRANDMASTERS.getD ((i + 1) % 16).toNat "", (i + 1) % 16))
    ∧ UploadPuzzles.generate_puzzle_title none = ("Magnus Carlsen", 0)
    ∧ UploadPuzzles.generate_puzzle_title (some 15) = ("Magnus Carlsen", 0) := by
  refine ⟨fun i => ?_, by rfl, by rfl⟩
  simp only [UploadPuzzles.generate_puzzle_title, Option.getD]
  rfl

/-- C5 counterexample: for the one-move mating solution `["Qh5#"]` the code
produces "Find the forced mate in 0 moves." (floor division `1 // 2 = 0`),
not the claimed "forced mate in N moves" with `N = ceil(1/2) = 1`. -/
theorem c5_floor_counterexample :
    GH.generate_description ["Qh5#"] = some "Find the forced mate in 0 moves."
    ∧ GH.generate_description ["Qh5#"] ≠
        some ("Find the forced mate in " ++ toString ((1 + 1) / 2) ++ " moves.") := by
  exact ⟨by rfl, by decide⟩

/-- C5 (amended): the description is a pure function of the SAN sequence: on a
non-empty sequence, if the final move ends with the checkmate mark `#` the
description announces a forced mate in `floor(len/2)` moves, and otherwise
(checks included — there is no separate check branch) the generic
best-move/advantage description; an empty sequence raises (modelled `none`). -/
theorem generate_description_cases :
    (∀ (ms : List String) (lastMove : String),
        GH.generate_description (ms ++ [lastMove]) =
          some (if GH.strEndsWithChar lastMove '#' then
                  "Find the forced mate in " ++ toString ((ms.length + 1) / 2) ++ " moves."
                else
                  "Find the best move to gain a decisive advantage."))
    ∧ GH.generate_description [] = none := by
  refine ⟨fun ms lastMove => ?_, rfl⟩
  unfold GH.generate_description
  rw [List.getLast?_concat]
  by_cases h : GH.strEndsWithChar lastMove '#'
  · simp [h, List.length_append]
  · simp [h]

/-- C1 counterexample: the conversion loop of `process_puzzle` in the workflow
script does not truncate — on a sequence whose 3rd move is illegal in the
position after the first two, it raises (the puzzle is skipped wholesale) and
in particular does not return the two SAN moves of the legal prefix, refuting
the claim for that cited converter implementation. -/
theorem process_puzzle_convert_no_partial :
    GH.process_puzzle_convert UploadPuzzles.toyOps 0
        (["e2e4", "e7e5"] ++ "a1a8" :: ["h1h8"]) =
      Except.error ("illegal uci: " ++ "a1a8")
    ∧ GH.process_puzzle_convert UploadPuzzles.toyOps 0
        (["e2e4", "e7e5"] ++ "a1a8" :: ["h1h8"]) ≠
      Except.ok (UploadPuzzles.sanRun UploadPuzzles.toyOps 0 ["e2e4", "e7e5"]) := by
  refine ⟨rfl, fun h => ?_⟩
  have h2 : (Except.error ("illegal uci: " ++ "a1a8") : Except String (List String)) =
      Except.ok (UploadPuzzles.sanRun UploadPuzzles.toyOps 0 ["e2e4", "e7e5"]) := h
  exact Except.noConfusion h2

/-- C1 (amended): the converter `uci_to_san_list` of src/upload_puzzles.py —
for every starting position, every sequentially-legal prefix, and a next move
that parses but is illegal in the position reached after the prefix — returns
exactly the SAN moves of the legal prefix (as many moves as the prefix is
long, so the 0-based failure index is the length of the result) and prints
which move it skipped; the remaining moves are never processed.  (The variant
in the workflow script instead raises at the first illegal move and returns no
partial result.) -/
theorem uci_to_san_list_truncates {σ μ : Type} (ops : ChessOps σ μ) (b : σ)
    (pre : List String) (u : String) (mv : μ) (rest : List String)
    (hpre : UploadPuzzles.legalRun ops b pre = true)
    (hp : ops.fromUci u = some mv)
    (hill : ops.isLegal (UploadPuzzles.runBoard ops b pre) mv = false) :
    UploadPuzzles.uci_to_san_list ops b (pre ++ u :: rest) =
      (UploadPuzzles.sanRun ops b pre, ["Skipping illegal move: " ++ u])
    ∧ (UploadPuzzles.sanRun ops b pre).length = pre.length := by
  induction pre generalizing b with
  | nil =>
    simp only [UploadPuzzles.runBoard] at hill
    simp [UploadPuzzles.uci_to_san_list, UploadPuzzles.sanRun, hp, hill]
  | cons p ps ih =>
    cases hq : ops.fromUci p with
    | none =>
      simp [UploadPuzzles.legalRun, hq] at hpre
    | some mp =>
      simp only [UploadPuzzles.legalRun, hq, Bool.and_eq_true] at hpre
      obtain ⟨hleg, hrun⟩ := hpre
      simp only [UploadPuzzles.runBoard, hq] at hill
      obtain ⟨ih1, ih2⟩ := ih (ops.push b mp) hrun hill
      simp [UploadPuzzles.uci_to_san_list, UploadPuzzles.sanRun, hq, hleg, ih1, ih2]

/-- C1 witness: on the toy capabilities, starting from position 0 with two
legal moves followed by an illegal third, the converter returns exactly the
two SAN moves and reports the skipped move. -/
theorem uci_to_san_list_truncates_witness :
    UploadPuzzles.uci_to_san_list UploadPuzzles.toyOps 0
        (["e2e4", "e7e5"] ++ "a1a8" :: ["h1h8"]) =
      (UploadPuzzles.sanRun UploadPuzzles.toyOps 0 ["e2e4", "e7e5"],
        ["Skipping illegal move: " ++ "a1a8"])
    ∧ (UploadPuzzles.sanRun UploadPuzzles.toyOps 0 ["e2e4", "e7e5"]).length =
        ["e2e4", "e7e5"].length :=
  uci_to_san_list_truncates UploadPuzzles.toyOps 0 ["e2e4", "e7e5"] "a1a8" "a1a8"
    ["h1h8"] (by decide) rfl (by decide)

/-- C3: the records as composed by the code are NOT free of nested arrays —
`main` in src/upload_puzzles.py and `upload_puzzle` in the workflow script
wrap the SAN list in a one-element outer array, and the daily-puzzle script
stores the board as a list of rank lists; each of these fails the flat-array
shape check (contradicting the module docstring "Stores a flat (non-nested)
array of SAN moves"). -/
theorem composed_records_are_nested :
    UploadPuzzles.solution_doc_solutions ["e4", "Qh5#"] =
      FireVal.arr [FireVal.arr [FireVal.str "e4", FireVal.str "Qh5#"]]
    ∧ (UploadPuzzles.solution_doc_solutions ["e4", "Qh5#"]).isFlatArray = false
    ∧ (GH.upload_solutions_field ["e4", "Qh5#"]).isFlatArray = false
    ∧ (DailyPuzzle.fen_to_board "8/8/8/8/8/8/8/8").isFlatArray = false :=
  ⟨rfl, rfl, rfl, rfl⟩

/-- C8: whenever the duplicate-existence query raises, `puzzle_exists` returns
`False` (assume not present) and `main` proceeds to attempt the upload. -/
theorem puzzle_exists_error_defaults_false
    (query : String → Except String (List String)) (sid : String) (e : String)
    (h : query sid = Except.error e) :
    UploadPuzzle.puzzle_exists query sid = false
    ∧ UploadPuzzle.main_upload_decision query sid = true := by
  have h1 : UploadPuzzle.puzzle_exists query sid = false := by
    unfold UploadPuzzle.puzzle_exists
    by_cases he : sid.isEmpty
    · simp [he]
    · simp [he, h]
  refine ⟨h1, ?_⟩
  unfold UploadPuzzle.main_upload_decision
  simp [h1]

/-- C8 witness: a concrete failing query with a concrete source id. -/
theorem puzzle_exists_error_defaults_false_witness :
    UploadPuzzle.puzzle_exists (fun _ => Except.error "connection reset") "abc12" = false
    ∧ UploadPuzzle.main_upload_decision (fun _ => Except.error "connection reset") "abc12" = true :=
  puzzle_exists_error_defaults_false (fun _ => Except.error "connection reset")
    "abc12" "connection reset" rfl

/-- C6 counterexample: two runs of the pipeline on the same source puzzle,
differing only in the clock reading, compose different stored-record
identifiers — `sanitize_title_for_doc_id` appends `int(time.time())`. -/
theorem doc_id_differs_across_reruns :
    UploadPuzzles.sanitize_title_for_doc_id "Magnus Carlsen".data 1700000000 ≠
      UploadPuzzles.sanitize_title_for_doc_id "Magnus Carlsen".data 1700000001 := by
  decide

/-- C6 (amended): only the `sourceId` dedup key of src/upload_puzzle.py is
stable across re-runs — it is a pure function of the fetched payload,
unaffected by the date the run happens on (while the document id of
src/upload_puzzles.py embeds the clock, and no hash over defining fields is
ever computed when a native id is absent). -/
theorem build_document_sourceId_stable (pid ppid : Option String)
    (sols : List String) (today1 today2 : String) :
    (UploadPuzzle.build_document_from_lichess pid ppid sols today1).sourceId =
      (UploadPuzzle.build_document_from_lichess pid ppid sols today2).sourceId :=
  rfl

/-- C7: with a parsed game and a non-negative ply offset the resolver pushes
exactly `min(ply_offset, total plies)` mainline moves from the game's start;
with no parsed game it falls back to the token scan, which ignores tokens that
fail to parse instead of aborting (a scan in which every token is unparseable
returns the fresh board unchanged). -/
theorem pgn_resolver_min_plies {σ μ : Type} (push : σ → μ → σ)
    (pushSan : σ → String → Option σ) (g : UploadPuzzle.ParsedGame σ μ)
    (fresh : σ) (txt : String) (ply : Nat) :
    (UploadPuzzle.pgn_to_board_position push pushSan (some g) fresh txt (some (ply : Int)) =
      (g.mainline.take (min ply g.mainline.length)).foldl push g.initBoard)
    ∧ (g.mainline.take (min ply g.mainline.length)).length = min ply g.mainline.length
    ∧ (∀ b : σ,
        UploadPuzzle.pgn_to_board_position push (fun _ _ => none) none b txt none = b) := by
  refine ⟨?_, ?_, ?_⟩
  · unfold UploadPuzzle.pgn_to_board_position
    have hmm : (max 0 (min ((ply : Nat) : Int) ((g.mainline.length : Nat) : Int))).toNat =
        min ply g.mainline.length := by omega
    simp only [Option.getD]
    rw [hmm]
  · rw [List.length_take]
    omega
  · intro b
    show UploadPuzzle.token_scan (fun _ _ => none) b txt = b
    unfold UploadPuzzle.token_scan
    generalize ((txt.split Char.isWhitespace).filter (fun t => !t.isEmpty)) = ts
    induction ts with
    | nil => rfl
    | cons t ts ih =>
      simp only [List.foldl_cons, Option.getD, ite_self] at ih ⊢
      exact ih

/-- C9 counterexample: in src/upload_puzzles.py a failed delete of the first
stale puzzle's `puzzles` record stops everything — the paired `solutions` and
`results` deletes of that puzzle are never attempted, the second stale puzzle
is never reached, and the pass ends in a raised exception. -/
theorem retention_aborts_counterexample :
    UploadPuzzles.delete_old_puzzles
        (fun c i => !(c == "puzzles" && i == "p1")) ["p1", "p2"] =
      ([("puzzles", "p1")], false)
    ∧ ("solutions", "p1") ∉
        (UploadPuzzles.delete_old_puzzles
          (fun c i => !(c == "puzzles" && i == "p1")) ["p1", "p2"]).1 := by
  exact ⟨rfl, by decide⟩

/-- C9 (amended): the retention pass of src/upload_puzzle.py wraps each
deletion in its own try/except, so whatever deletions fail, every stored
record older than the cutoff has its deletion attempted — the attempted ids
are exactly the stale candidates, independent of the outcomes.  (In
src/upload_puzzles.py, by contrast, the pass stops at the first failure, and
the three paired deletes of one puzzle are not individually protected.) -/
theorem retention_attempts_all_candidates (del : String → Bool) (cutoff : Int)
    (docs : List UploadPuzzle.StoredDoc) :
    (UploadPuzzle.delete_old_puzzles del cutoff docs).map Prod.fst =
      (docs.filter (fun d =>
        match d.createdAt with
        | some t => decide (t < cutoff)
        | none => false)).map UploadPuzzle.StoredDoc.id := by
  induction docs with
  | nil => rfl
  | cons d rest ih =>
    cases h : d.createdAt with
    | none =>
      simp only [UploadPuzzle.delete_old_puzzles, h, List.filter_cons]
      simpa [h] using ih
    | some t =>
      by_cases hlt : t < cutoff
      · simp only [UploadPuzzle.delete_old_puzzles, h, List.filter_cons]
        simp [hlt, ih]
      · simp only [UploadPuzzle.delete_old_puzzles, h, List.filter_cons]
        simp [hlt, ih]

/-- Helper: a single-character replace distributes over concatenation. -/
theorem replaceChar_append (c : Char) (r : List Char) (xs ys : List Char) :
    UploadPuzzles.replaceChar c r (xs ++ ys) =
      UploadPuzzles.replaceChar c r xs ++ UploadPuzzles.replaceChar c r ys := by
  induction xs with
  | nil => rfl
  | cons x xs ih => simp [UploadPuzzles.replaceChar, ih]

/-- Helper: a chain of single-character replaces distributes over
concatenation. -/
theorem replaceAll_append (ps : List (Char × List Char)) (xs ys : List Char) :
    UploadPuzzles.replaceAll ps (xs ++ ys) =
      UploadPuzzles.replaceAll ps xs ++ UploadPuzzles.replaceAll ps ys := by
  induction ps generalizing xs ys with
  | nil => rfl
  | cons p ps ih =>
    show UploadPuzzles.replaceAll ps (UploadPuzzles.replaceChar p.1 p.2 (xs ++ ys)) = _
    rw [replaceChar_append]
    exact ih _ _

/-- Helper: serializing one well-formed FEN rank yields as many characters as
the squares the rank covers. -/
theorem rank_serialize_length_eq_sum (r : List Char)
    (hmem : ∀ c ∈ r, c ∈ UploadPuzzles.validFenChars) :
    (UploadPuzzles.replaceAll UploadPuzzles.board_replacements r).length =
      (r.map UploadPuzzles.fenCharWeight).sum := by
  have hchar : ∀ c ∈ UploadPuzzles.validFenChars,
      (UploadPuzzles.replaceAll UploadPuzzles.board_replacements [c]).length =
        UploadPuzzles.fenCharWeight c := by decide
  induction r with
  | nil => rfl
  | cons c cs ih =>
    have hc : c ∈ UploadPuzzles.validFenChars := hmem c (List.mem_cons_self c cs)
    have hcs : ∀ x ∈ cs, x ∈ UploadPuzzles.validFenChars :=
      fun x hx => hmem x (List.mem_cons_of_mem c hx)
    have hsplit : (c :: cs) = [c] ++ cs := rfl
    rw [hsplit, replaceAll_append, List.length_append, hchar c hc, ih hcs]
    simp

/-- C10: serializing the board_fen of any position — eight well-formed FEN
ranks joined by slashes — always yields exactly 64 characters, one per
square. -/
theorem serialize_board_to_string_length (ranks : List (List Char))
    (h8 : ranks.length = 8)
    (hwf : ∀ r ∈ ranks, UploadPuzzles.wfRank r = true) :
    (UploadPuzzles.serialize_board_to_string (List.intercalate ['/'] ranks)).length = 64 := by
  have key : ∀ rs : List (List Char), (∀ r ∈ rs, UploadPuzzles.wfRank r = true) →
      (UploadPuzzles.serialize_board_to_string (List.intercalate ['/'] rs)).length =
        8 * rs.length := by
    intro rs
    induction rs with
    | nil => intro _; rfl
    | cons r rest ih =>
      intro hall
      have hr : UploadPuzzles.wfRank r = true := hall r (List.mem_cons_self r rest)
      have hrest : ∀ x ∈ rest, UploadPuzzles.wfRank x = true :=
        fun x hx => hall x (List.mem_cons_of_mem r hx)
      have hrmem : ∀ c ∈ r, c ∈ UploadPuzzles.validFenChars := by
        have := hr
        simp only [UploadPuzzles.wfRank, Bool.and_eq_true, List.all_eq_true,
          decide_eq_true_eq, beq_iff_eq] at this
        exact this.1
      have hrsum : (r.map UploadPuzzles.fenCharWeight).sum = 8 := by
        have := hr
        simp only [UploadPuzzles.wfRank, Bool.and_eq_true, List.all_eq_true,
          decide_eq_true_eq, beq_iff_eq] at this
        exact this.2
      have hrlen :
          (UploadPuzzles.replaceAll UploadPuzzles.board_replacements r).length = 8 := by
        rw [rank_serialize_length_eq_sum r hrmem, hrsum]
      cases rest with
      | nil =>
        show (UploadPuzzles.serialize_board_to_string (List.intercalate ['/'] [r])).length = _
        have : List.intercalate ['/'] [r] = r := by
          simp [List.intercalate]
        rw [this]
        simpa [UploadPuzzles.serialize_board_to_string] using hrlen
      | cons s rest2 =>
        have hstep : List.intercalate ['/'] (r :: s :: rest2) =
            r ++ ['/'] ++ List.intercalate ['/'] (s :: rest2) := by
          simp [List.intercalate]
        rw [hstep]
        unfold UploadPuzzles.serialize_board_to_string at ih ⊢
        rw [replaceAll_append, replaceAll_append]
        have hsep :
            UploadPuzzles.replaceAll UploadPuzzles.board_replacements ['/'] = [] := rfl
        rw [hsep]
        simp only [List.length_append, List.length_nil]
        rw [hrlen, ih hrest]
        simp only [List.length_cons]
        ring
  rw [key ranks hwf, h8]

/-- C10 witness: the serialized starting position has exactly 64
characters. -/
theorem serialize_board_to_string_length_witness :
    (UploadPuzzles.serialize_board_to_string
      (List.intercalate ['/']
        [['r','n','b','q','k','b','n','r'], ['p','p','p','p','p','p','p','p'],
         ['8'], ['8'], ['8'], ['8'],
         ['P','P','P','P','P','P','P','P'], ['R','N','B','Q','K','B','N','R']])).length = 64 :=
  serialize_board_to_string_length
    [['r','n','b','q','k','b','n','r'], ['p','p','p','p','p','p','p','p'],
     ['8'], ['8'], ['8'], ['8'],
     ['P','P','P','P','P','P','P','P'], ['R','N','B','Q','K','B','N','R']]
    rfl (by decide)
